import Mathlib

/-!
Verification development for the go-oled-controller repository.

The definitions below are a shallow embedding of the Go source: the wire
codec (`SendCommand` / `ReadResponse` in main.go), the session handshake
(`OLEDController.Run`), the per-screen state machine (`Screen.Run`), and the
frame writer (`OLEDController.DrawScreen`).  Machine bytes are modelled as
`Nat` with explicit `% 256` where uint8 overflow matters; fallible paths
return `Option`.
-/

namespace OledController

/-! ### Protocol constants (main.go, newer revision) -/

/-- Message marker for an outbound command report (`CommandMsg = 0xC0`). -/
def CommandMsg : Nat := 0xC0

/-- Message marker for an inbound event report (`EventMsg = 0xC1`). -/
def EventMsg : Nat := 0xC1

/-- Result code for a successful command (`Success = 0x00`). -/
def Success : Nat := 0x00

/-- Result code for a failed command (`Failure = 0x01`). -/
def Failure : Nat := 0x01

/-- Command identifier `SetUp = 0x00`. -/
def SetUp : Nat := 0x00

/-- Command identifier `Clear = 0x01`. -/
def Clear : Nat := 0x01

/-- Command identifier `SetLine = 0x02`. -/
def SetLine : Nat := 0x02

/-- Command identifier `SetChars = 0x03`. -/
def SetChars : Nat := 0x03

/-- Command identifier `Present = 0x04`. -/
def Present : Nat := 0x04

/-- Screen identifier `Master = 0x00`. -/
def Master : Nat := 0x00

/-- Screen identifier `Slave = 0x01`. -/
def Slave : Nat := 0x01

/-- Event identifier `ChangeTag = 0x00`. -/
def ChangeTag : Nat := 0x00

/-- Event identifier `IncrementTag = 0x01`. -/
def IncrementTag : Nat := 0x01

/-- Event identifier `DecrementTag = 0x02`. -/
def DecrementTag : Nat := 0x02

/-! ### Decoded inbound messages -/

/-- Decoded inbound message: either a `Response` (success flag, echoed
command, screen, params) or an `Event` (event id, screen, params), mirroring
the two structs in main.go. -/
inductive Message
  | response (success : Bool) (command : Nat) (screen : Nat) (params : List Nat)
  | event (eventId : Nat) (screen : Nat) (params : List Nat)
deriving DecidableEq

/-! ### Wire codec -/

/-- Go `copy(dst, src)` semantics on byte slices: overwrite the prefix of
`dst` with `src`, copying `min (src.length) (dst.length)` bytes. -/
def goCopy (dst src : List Nat) : List Nat :=
  src.take dst.length ++ dst.drop (min src.length dst.length)

/-- The 32-byte report `OLEDController.SendCommand` writes for
`(cmd, screen, data)`: a zeroed 32-byte buffer with `buf[0] = CommandMsg`,
`buf[1] = cmd`, `buf[2] = screen`, and `data` copied into `buf[3:32]`. -/
def sendCommandBuf (cmd screenId : Nat) (data : List Nat) : List Nat :=
  let buf := List.replicate 32 0
  let buf := buf.set 0 CommandMsg
  let buf := buf.set 1 cmd
  let buf := buf.set 2 screenId
  buf.take 3 ++ goCopy (buf.drop 3) data

/-- The message `OLEDController.ReadResponse` yields once `ReadTimeout` has
filled the 32-byte buffer `buf` (the `size ≥ 1` path): a leading `Success`
or `Failure` byte builds a `Response` from bytes 1, 2 and 3..31, but a
failure response is logged and dropped (`return nil, nil`); a leading
`EventMsg` byte builds an `Event`; any other leading byte is logged as an
unknown message and dropped. -/
def readResponseMsg (buf : List Nat) : Option Message :=
  let b0 := buf.getD 0 0
  if b0 = Success ∨ b0 = Failure then
    let resp := Message.response (b0 == Success) (buf.getD 1 0) (buf.getD 2 0) (buf.drop 3)
    if b0 == Success then some resp else none
  else if b0 = EventMsg then
    some (Message.event (buf.getD 1 0) (buf.getD 2 0) (buf.drop 3))
  else
    none

/-! ### Session start (handshake) -/

/-- Outcome of session start in `OLEDController.Run`: either the session is
aborted before any screen handler is spawned, or it proceeds with the
discovered geometry. -/
inductive SessionStart
  | aborted
  | started (columns rows : Nat)
deriving DecidableEq

/-- The handshake logic of `OLEDController.Run` after `SendCommand(SetUp,
Master, nil)`, applied to the message returned by `ReadResponse` (where
`none` covers a timeout, a read error, a failure response, or an unknown
message): a non-`Response` aborts, as do zero columns or rows. -/
def runSetup (m : Option Message) : SessionStart :=
  match m with
  | none => SessionStart.aborted
  | some (Message.response _ _ _ params) =>
      let columns := params.getD 0 0
      let rows := params.getD 1 0
      if columns < 1 ∨ rows < 1 then SessionStart.aborted
      else SessionStart.started columns rows
  | some (Message.event _ _ _) => SessionStart.aborted

/-- Session start from the raw handshake reply: `none` models a timed-out or
failed read, `some buf` a filled 32-byte report which is decoded by
`ReadResponse` and then checked by the handshake logic of `Run`. -/
def runHandshake (report : Option (List Nat)) : SessionStart :=
  match report with
  | none => SessionStart.aborted
  | some buf => runSetup (readResponseMsg buf)

/-- The screen handlers spawned by `OLEDController.Run` (id, initial tag):
none when the session aborted, otherwise `Master` starting on tag 1 and
`Slave` starting on tag 2. -/
def runScreens : SessionStart → List (Nat × Nat)
  | SessionStart.aborted => []
  | SessionStart.started _ _ => [(Master, 1), (Slave, 2)]

/-! ### The tags mapping (tag.go) -/

/-- Keys of the `tags` map in tag.go: `{1: GeneralInfo, 2: SysStats,
3: GPUStats}`.  Only membership and the map's size matter to the screen
state machine, so the map is embedded as its key list. -/
def tagsKeys : List Nat := [1, 2, 3]

/-! ### Screen state machine (`Screen.Run`) -/

/-- State of one `Screen.Run` loop: the `Screen` struct fields `ID` and
`Tag` together with the loop locals `hasTag` and `stopped`.  `gen` numbers
the successive `results` channels: the channel made before the loop is
generation 0 and each successful `showTag` replaces it with a fresh one
(`results = make(chan []string, 5)`), so the producer started by the n-th
successful `showTag` writes to channel generation n. -/
structure ScreenState where
  id : Nat
  tag : Nat
  hasTag : Bool
  stopped : Bool
  gen : Nat
deriving DecidableEq

/-- An inbound `Event` struct: event id, target screen, params. -/
structure Ev where
  eventId : Nat
  screen : Nat
  params : List Nat
deriving DecidableEq

/-- Observable actions of one iteration of the `Screen.Run` loop. -/
inductive Action
  | log
  | fatal
  | stopReq
  | startProducer (tagId : Nat) (gen : Nat)
  | sendCmd (cmd : Nat) (screen : Nat) (data : List Nat)
  | draw (lines : List (List Nat))
deriving DecidableEq

/-- One arrival at the `select` of `Screen.Run`: an event from
`screen.Events`, a frame from the current `results` channel (`more = true`),
the closing of the current `results` channel (`more = false`), or a value
from the closed `screen.Quit` channel.  `lines` and `streamClosed` carry the
generation of the channel they arrive on; Go channel selection guarantees
this is the generation currently bound to `results`. -/
inductive SInput
  | ev (e : Ev)
  | lines (gen : Nat) (frame : List (List Nat))
  | streamClosed (gen : Nat)
  | quit
deriving DecidableEq

/-- The `showTag` closure in `Screen.Run`: an unknown tag id only logs
("Tag %d out of range."); a known one sets `hasTag`, records the tag,
replaces the `results` channel (generation bump) and starts the producer
goroutine for that tag. -/
def showTag (tagsK : List Nat) (s : ScreenState) (tagId : Nat) :
    ScreenState × List Action :=
  if tagsK.contains tagId then
    ({ s with hasTag := true, tag := tagId, gen := s.gen + 1 },
     [Action.startProducer tagId (s.gen + 1)])
  else
    (s, [Action.log])

/-- Result of the `switch event.Event` block in `Screen.Run`: either
`continue` back to the select (with the logs it emitted), or fall through to
the stop-then-show sequence with the computed tag value.  An event id
outside the three known ones leaves the `var tag uint8` at its zero value
and falls through. -/
inductive SwitchOut
  | cont (acts : List Action)
  | proceed (tag : Nat)
deriving DecidableEq

/-- The `switch event.Event` block of `Screen.Run`.  `ChangeTag` takes
`event.Params[0]` (inbound params are always 29 bytes, so index 0 exists;
modelled with `getD`).  `IncrementTag` computes `screen.Tag + 1` in uint8
arithmetic, falling back to tag 1 when unknown; `DecrementTag` computes
`screen.Tag - 1`, falling back to `uint8(len(tags))`; both `continue` with a
log when the map is empty or the fallback is also unknown. -/
def selectTag (tagsK : List Nat) (s : ScreenState) (e : Ev) : SwitchOut :=
  if e.eventId = ChangeTag then
    SwitchOut.proceed (e.params.getD 0 0)
  else if e.eventId = IncrementTag then
    if tagsK.length < 1 then SwitchOut.cont [Action.log]
    else
      let t := (s.tag + 1) % 256
      if tagsK.contains t then SwitchOut.proceed t
      else if tagsK.contains 1 then SwitchOut.proceed 1
      else SwitchOut.cont [Action.log]
  else if e.eventId = DecrementTag then
    if tagsK.length < 1 then SwitchOut.cont [Action.log]
    else
      let t := (s.tag + 255) % 256
      if tagsK.contains t then SwitchOut.proceed t
      else if tagsK.contains (tagsK.length % 256) then
        SwitchOut.proceed (tagsK.length % 256)
      else SwitchOut.cont [Action.log]
  else
    SwitchOut.proceed 0

/-- One iteration of the `Screen.Run` select loop.  Returns the next state
(`none` when the iteration returns from `Run`, in which case the deferred
`SendCommand(Clear, screen.ID, nil)` fires and is appended to the actions)
and the actions of the iteration, in program order:
an event for another screen is a `log.Panicln` (deferred `Clear` still runs);
events while `stopped` are logged and ignored; otherwise the tag switch
sends on `stop` if `hasTag` and then runs `showTag`.  A frame from the
current `results` channel is drawn unconditionally.  The channel closing
returns if `stopped`, else clears `hasTag` and sends `Clear`.  A quit
arrival sends `Clear`, then: with `hasTag` it sends one `stop` unless
already `stopped` and sets `stopped`; without `hasTag` it returns. -/
def screenStep (tagsK : List Nat) (s : ScreenState) (i : SInput) :
    Option ScreenState × List Action :=
  match i with
  | SInput.ev e =>
      if e.screen ≠ s.id then
        (none, [Action.fatal, Action.sendCmd Clear s.id []])
      else if s.stopped then
        (some s, [Action.log])
      else
        match selectTag tagsK s e with
        | SwitchOut.cont acts => (some s, acts)
        | SwitchOut.proceed t =>
            let stopActs := if s.hasTag then [Action.stopReq] else []
            let p := showTag tagsK s t
            (some p.1, stopActs ++ p.2)
  | SInput.lines _ frame => (some s, [Action.draw frame])
  | SInput.streamClosed _ =>
      if s.stopped then
        (none, [Action.sendCmd Clear s.id []])
      else
        (some { s with hasTag := false }, [Action.sendCmd Clear s.id []])
  | SInput.quit =>
      if s.hasTag then
        (some { s with stopped := true },
         Action.sendCmd Clear s.id [] ::
           (if s.stopped then [] else [Action.stopReq]))
      else
        (none, [Action.sendCmd Clear s.id [], Action.sendCmd Clear s.id []])

/-- Folding `screenStep` over a list of select arrivals: final state
(`none` once the loop has returned) and the concatenated actions.  Arrivals
after the loop has returned are never consumed. -/
def runScreen (tagsK : List Nat) : ScreenState → List SInput →
    Option ScreenState × List Action
  | s, [] => (some s, [])
  | s, i :: rest =>
      match screenStep tagsK s i with
      | (some s', acts) =>
          let r := runScreen tagsK s' rest
          (r.1, acts ++ r.2)
      | (none, acts) => (none, acts)

/-- States visited while folding `screenStep` over a list of arrivals,
including the initial one. -/
def runStates (tagsK : List Nat) : ScreenState → List SInput → List ScreenState
  | s, [] => [s]
  | s, i :: rest =>
      match screenStep tagsK s i with
      | (some s', _) => s :: runStates tagsK s' rest
      | (none, _) => [s]

/-- Go channel selection reads only the channel currently bound to
`results`, so a frame or a close can only arrive with the current
generation; events and quit arrivals are unconstrained. -/
def genOk (s : ScreenState) : SInput → Bool
  | SInput.lines g _ => g == s.gen
  | SInput.streamClosed g => g == s.gen
  | _ => true

/-- A list of select arrivals is a valid trace from `s` when every frame or
close arrival carries the generation of the channel current at that point,
and no arrival is consumed after the loop has returned. -/
def validFrom (tagsK : List Nat) : ScreenState → List SInput → Bool
  | _, [] => true
  | s, i :: rest =>
      genOk s i &&
        (match (screenStep tagsK s i).1 with
         | some s' => validFrom tagsK s' rest
         | none => rest.isEmpty)

/-- Generations of the frame arrivals (`more = true`, i.e. the drawn
frames) of a trace, in order. -/
def lineGens : List SInput → List Nat
  | [] => []
  | SInput.lines g _ :: rest => g :: lineGens rest
  | _ :: rest => lineGens rest

/-- Test for a stream-completion arrival. -/
def isStreamClosed : SInput → Bool
  | SInput.streamClosed _ => true
  | _ => false

/-- Shutdown wait of `OLEDController.Run`: after the signal it does
`close(quit)` followed by `wg.Wait()`, and every screen handler holds a
unit of the wait group from entry (`wg.Add(1)`) until its loop returns
(`defer wg.Done()`), so the session loop proceeds past `wg.Wait()` — to
drain the transport and finish — exactly when every screen's `Run` loop has
returned.  Given each screen's initial state and its trace of select
arrivals, the wait is done when every screen's run has exited. -/
def sessionWaitDone (tagsK : List Nat)
    (screens : List (ScreenState × List SInput)) : Bool :=
  screens.all (fun p => ((runScreen tagsK p.1 p.2).1).isNone)

/-! ### Frame writer (`OLEDController.DrawScreen`) -/

/-- Observable actions of `DrawScreen`: a `SendCommand` with its report
fields, or a `time.Sleep` with its duration in milliseconds. -/
inductive WireAct
  | send (cmd : Nat) (screen : Nat) (data : List Nat)
  | sleep (ms : Nat)
deriving DecidableEq

/-- The `for i, line := range lines` loop of `DrawScreen`, with `i` made
explicit: once `i > rows` it logs and breaks; otherwise it sends a
`SetLine` report whose payload is the row index followed by the row bytes
(`append([]byte{byte(i)}, line...)`) and sleeps 10 ms. -/
def drawLines (rows screenId : Nat) : Nat → List (List Nat) → List WireAct
  | _, [] => []
  | i, line :: rest =>
      if i > rows then []
      else
        WireAct.send SetLine screenId (i :: line) ::
          WireAct.sleep 10 :: drawLines rows screenId (i + 1) rest

/-- `OLEDController.DrawScreen(screen, lines)` on a controller with `Rows =
rows`: the row loop followed by a single `SendCommand(Present, screen,
nil)`. -/
def DrawScreen (rows screenId : Nat) (lines : List (List Nat)) : List WireAct :=
  drawLines rows screenId 0 lines ++ [WireAct.send Present screenId []]

/-- The write sequence the spec prescribes for one frame starting at row
`i`: one `SetLine` per line in order, each followed by the 10 ms pacing
sleep (so consecutive row writes are separated by it), and no other
commands. -/
def pacedFrame (screenId : Nat) : Nat → List (List Nat) → List WireAct
  | _, [] => []
  | i, line :: rest =>
      WireAct.send SetLine screenId (i :: line) ::
        WireAct.sleep 10 :: pacedFrame screenId (i + 1) rest

/-- Test for a send of command `c`. -/
def isCmd (c : Nat) : WireAct → Bool
  | WireAct.send c' _ _ => c' == c
  | WireAct.sleep _ => false

/-- Number of sends of command `c` in an action list. -/
def countCmd (c : Nat) (l : List WireAct) : Nat := l.countP (isCmd c)

/-! ### Helper lemmas -/

/-- Closed form of the report built by `SendCommand`: header bytes followed
by the payload truncated to 29 bytes and padded with zeros. -/
theorem sendCommandBuf_eq (cmd screenId : Nat) (data : List Nat) :
    sendCommandBuf cmd screenId data =
      CommandMsg :: cmd :: screenId ::
        (data.take 29 ++ List.replicate (29 - data.length) 0) := by
  have h : sendCommandBuf cmd screenId data
      = [CommandMsg, cmd, screenId] ++ goCopy (List.replicate 29 0) data := rfl
  rw [h]
  simp only [goCopy, List.length_replicate, List.drop_replicate]
  have hm : 29 - min data.length 29 = 29 - data.length := by omega
  rw [hm]
  simp

/-- `ReadResponse` only ever returns success responses: the failure branch
is logged and dropped. -/
theorem readResponseMsg_success (buf : List Nat) (b : Bool) (c scr : Nat)
    (p : List Nat)
    (h : readResponseMsg buf = some (Message.response b c scr p)) : b = true := by
  simp only [readResponseMsg] at h
  split_ifs at h with h1 h2 h3 <;> simp_all

/-! ### Claim theorems: wire codec -/

/-- C9: for every command, screen, and payload, `SendCommand` builds exactly
one 32-byte report with byte 0 the command-message marker, byte 1 the
command id, byte 2 the screen id, and bytes 3..31 the payload truncated to
29 bytes and padded with zero bytes. -/
theorem c9_encode_layout (cmd screenId : Nat) (data : List Nat) :
    (sendCommandBuf cmd screenId data).length = 32 ∧
    sendCommandBuf cmd screenId data =
      CommandMsg :: cmd :: screenId ::
        (data.take 29 ++ List.replicate (29 - data.length) 0) := by
  refine ⟨?_, sendCommandBuf_eq cmd screenId data⟩
  rw [sendCommandBuf_eq]
  simp only [List.length_cons, List.length_append, List.length_take,
    List.length_replicate]
  omega

/-- C4 counterexample: decoding the report produced by encoding
`(SetUp, Master, [7])` yields no message at all (the decoder rejects the
command marker `0xC0` as an unknown message), so the round-trip law fails
as stated. -/
theorem c4_counterexample :
    readResponseMsg (sendCommandBuf SetUp Master [7]) = none := by decide

/-- C4 amended: for every command, screen, and payload of at most 29 bytes,
decoding the encoded report yields no message (the decoder recognizes only
the response markers 0x00/0x01 and the event marker 0xC1, never the command
marker 0xC0); the original command, screen, and payload are nevertheless
recoverable verbatim from bytes 1, 2 and 3..31 of the report, the payload
zero-padded to 29 bytes. -/
theorem c4_roundtrip_amended (cmd screenId : Nat) (data : List Nat)
    (h : data.length ≤ 29) :
    readResponseMsg (sendCommandBuf cmd screenId data) = none ∧
    sendCommandBuf cmd screenId data =
      CommandMsg :: cmd :: screenId ::
        (data ++ List.replicate (29 - data.length) 0) := by
  constructor
  · rw [sendCommandBuf_eq]
    simp [readResponseMsg, CommandMsg, Success, Failure, EventMsg]
  · rw [sendCommandBuf_eq, List.take_of_length_le h]

/-- C4 witness: the amended round-trip at `(SetLine, Slave, [0, 104, 105])`. -/
theorem c4_witness :
    readResponseMsg (sendCommandBuf SetLine Slave [0, 104, 105]) = none ∧
    sendCommandBuf SetLine Slave [0, 104, 105] =
      CommandMsg :: SetLine :: Slave ::
        ([0, 104, 105] ++ List.replicate 26 0) :=
  c4_roundtrip_amended SetLine Slave [0, 104, 105] (by decide)

/-- C3 counterexample: the 32-byte report whose first byte is `0x01`
(a failure response) decodes to no message at all, not to a `Response`
with `success = false`: `ReadResponse` logs the failure and drops it. -/
theorem c3_counterexample :
    readResponseMsg (Failure :: List.replicate 31 0) = none := by decide

/-- C3 amended: a report whose first byte is `0x00` decodes to a `Response`
with `success = true` whose command, screen, and params are taken verbatim
from byte 1, byte 2, and bytes 3..31; a report whose first byte is `0x01`
is logged as a command failure and decodes to no message. -/
theorem c3_decode_amended (buf : List Nat) :
    (buf.getD 0 0 = Success →
      readResponseMsg buf =
        some (Message.response true (buf.getD 1 0) (buf.getD 2 0) (buf.drop 3))) ∧
    (buf.getD 0 0 = Failure →
      readResponseMsg buf = none) := by
  constructor
  · intro h
    simp only [readResponseMsg]
    rw [h]
    simp [Success, Failure]
  · intro h
    simp only [readResponseMsg]
    rw [h]
    simp [Success, Failure]

/-- C3 witness: the amended decode law at two concrete reports. -/
theorem c3_witness :
    readResponseMsg (0 :: 5 :: 1 :: [9]) = some (Message.response true 5 1 [9]) ∧
    readResponseMsg (1 :: 5 :: 1 :: [9]) = none :=
  ⟨(c3_decode_amended (0 :: 5 :: 1 :: [9])).1 rfl,
   (c3_decode_amended (1 :: 5 :: 1 :: [9])).2 rfl⟩

/-- C5 counterexample: a handshake reply that is a success response echoing
the `Clear` command (not `SetUp`) with parameter bytes `[4, 2]` is accepted
and the session starts, so the claim's "echoed command is SetUp" condition
is not checked by the code. -/
theorem c5_counterexample :
    runHandshake (some (0 :: 1 :: 0 :: 4 :: 2 :: List.replicate 27 0))
      = SessionStart.started 4 2 ∧
    readResponseMsg (0 :: 1 :: 0 :: 4 :: 2 :: List.replicate 27 0)
      = some (Message.response true Clear Master (4 :: 2 :: List.replicate 27 0)) ∧
    Clear ≠ SetUp := by decide

/-- C5 amended: session start succeeds — and spawns the two screen handlers
— exactly when the handshake reply decodes to a success response whose
first two parameter bytes are both at least 1, regardless of the echoed
command; a timeout, a failure response, an event, an unknown message, or a
zero column or row count aborts the session before any screen handler is
spawned. -/
theorem c5_handshake_amended (report : Option (List Nat)) :
    runScreens (runHandshake report) ≠ [] ↔
      ∃ buf c scr p, report = some buf ∧
        readResponseMsg buf = some (Message.response true c scr p) ∧
        1 ≤ p.getD 0 0 ∧ 1 ≤ p.getD 1 0 := by
  constructor
  · intro hne
    cases report with
    | none => exact absurd rfl hne
    | some buf =>
        simp only [runHandshake] at hne
        cases hm : readResponseMsg buf with
        | none =>
            rw [hm] at hne
            exact absurd rfl hne
        | some m =>
            rw [hm] at hne
            cases m with
            | event e scr p => exact absurd rfl hne
            | response b c scr p =>
                have hb := readResponseMsg_success buf b c scr p hm
                subst hb
                simp only [runSetup] at hne
                by_cases hlt : p.getD 0 0 < 1 ∨ p.getD 1 0 < 1
                · rw [if_pos hlt] at hne
                  exact absurd rfl hne
                · exact ⟨buf, c, scr, p, rfl, hm, by omega, by omega⟩
  · rintro ⟨buf, c, scr, p, hrep, hd, h1, h2⟩
    subst hrep
    simp only [runHandshake]
    rw [hd]
    simp only [runSetup]
    rw [if_neg (by omega : ¬(p.getD 0 0 < 1 ∨ p.getD 1 0 < 1))]
    simp [runScreens]

/-! ### Claim theorems: frame writer -/

/-- Row loop of `DrawScreen` agrees with the paced per-line write sequence
as long as every row index stays within the `i > rows` cutoff. -/
theorem drawLines_eq_pacedFrame (rows screenId : Nat) :
    ∀ (lines : List (List Nat)) (i : Nat), i + lines.length ≤ rows + 1 →
      drawLines rows screenId i lines = pacedFrame screenId i lines := by
  intro lines
  induction lines with
  | nil => intro i _; rfl
  | cons l rest ih =>
      intro i hle
      simp only [List.length_cons] at hle
      have hni : ¬ i > rows := by omega
      simp only [drawLines, pacedFrame, if_neg hni]
      rw [ih (i + 1) (by omega)]

/-- Unfolding `countCmd` over a send. -/
theorem countCmd_cons_send (c c' scr : Nat) (d : List Nat) (l : List WireAct) :
    countCmd c (WireAct.send c' scr d :: l) =
      countCmd c l + if c' == c then 1 else 0 := by
  simp [countCmd, List.countP_cons, isCmd]

/-- Unfolding `countCmd` over a sleep. -/
theorem countCmd_cons_sleep (c ms : Nat) (l : List WireAct) :
    countCmd c (WireAct.sleep ms :: l) = countCmd c l := by
  simp [countCmd, List.countP_cons, isCmd]

/-- `countCmd` distributes over append. -/
theorem countCmd_append (c : Nat) (l1 l2 : List WireAct) :
    countCmd c (l1 ++ l2) = countCmd c l1 + countCmd c l2 :=
  List.countP_append ..

/-- The paced write sequence contains one `SetLine` send per line and no
`Present` send. -/
theorem countCmd_pacedFrame (screenId : Nat) :
    ∀ (lines : List (List Nat)) (i : Nat),
      countCmd SetLine (pacedFrame screenId i lines) = lines.length ∧
      countCmd Present (pacedFrame screenId i lines) = 0 := by
  intro lines
  induction lines with
  | nil => intro i; exact ⟨rfl, rfl⟩
  | cons l rest ih =>
      intro i
      obtain ⟨h1, h2⟩ := ih (i + 1)
      simp only [pacedFrame, countCmd_cons_send, countCmd_cons_sleep, h1, h2,
        List.length_cons]
      constructor <;> simp [SetLine, Present]

/-- C7 counterexample: `DrawScreen` on a controller with 1 row and a
non-empty frame of 3 lines sends only 2 `SetLine` commands (the
`i > rows` cutoff breaks out of the loop), so "one SetLine command per
line" fails as stated; the single `Present` is still sent. -/
theorem c7_counterexample :
    countCmd SetLine (DrawScreen 1 0 [[97], [98], [99]]) = 2 ∧
    ([[97], [98], [99]] : List (List Nat)).length = 3 ∧
    countCmd Present (DrawScreen 1 0 [[97], [98], [99]]) = 1 := by decide

/-- C7 amended: for every frame of at most `rows + 1` lines (the cutoff of
the row loop), `DrawScreen` emits exactly one `SetLine` send per line, in
the order the lines appear, each followed by the 10 ms pacing sleep (so
consecutive row writes are separated by it), and exactly one `Present`
send, after all the `SetLine` sends. -/
theorem c7_drawscreen_amended (rows screenId : Nat) (lines : List (List Nat))
    (_hne : lines ≠ []) (hlen : lines.length ≤ rows + 1) :
    DrawScreen rows screenId lines =
      pacedFrame screenId 0 lines ++ [WireAct.send Present screenId []] ∧
    countCmd SetLine (DrawScreen rows screenId lines) = lines.length ∧
    countCmd Present (DrawScreen rows screenId lines) = 1 := by
  have heq : DrawScreen rows screenId lines =
      pacedFrame screenId 0 lines ++ [WireAct.send Present screenId []] := by
    simp only [DrawScreen]
    rw [drawLines_eq_pacedFrame rows screenId lines 0 (by omega)]
  refine ⟨heq, ?_, ?_⟩
  · rw [heq, countCmd_append, (countCmd_pacedFrame screenId lines 0).1,
      countCmd_cons_send]
    simp [countCmd, SetLine, Present]
  · rw [heq, countCmd_append, (countCmd_pacedFrame screenId lines 0).2,
      countCmd_cons_send]
    simp [countCmd, SetLine, Present]

/-- C7 witness: the amended frame-writing law at a concrete 2-line frame on
a 4-row screen. -/
theorem c7_witness :
    DrawScreen 3 0 [[104], [105]] =
      pacedFrame 0 0 [[104], [105]] ++ [WireAct.send Present 0 []] ∧
    countCmd SetLine (DrawScreen 3 0 [[104], [105]]) = 2 ∧
    countCmd Present (DrawScreen 3 0 [[104], [105]]) = 1 :=
  c7_drawscreen_amended 3 0 [[104], [105]] (by decide) (by decide)

/-! ### Helper lemmas: screen state machine -/

/-- The generation of the current `results` channel never decreases: only a
successful `showTag` touches it, replacing the channel with a fresh one. -/
theorem screenStep_gen_mono (tagsK : List Nat) (s : ScreenState) (i : SInput)
    (s' : ScreenState) (h : (screenStep tagsK s i).1 = some s') :
    s.gen ≤ s'.gen := by
  cases i with
  | ev e =>
      by_cases h1 : e.screen = s.id
      · by_cases h2 : s.stopped
        · simp [screenStep, h1, h2] at h
          cases h
          exact le_rfl
        · rcases hsel : selectTag tagsK s e with acts | t
          · simp [screenStep, h1, h2, hsel] at h
            cases h
            exact le_rfl
          · simp [screenStep, h1, h2, hsel] at h
            simp only [showTag] at h
            split_ifs at h with hc <;> cases h <;> simp
      · simp [screenStep, h1] at h
  | lines g f =>
      simp [screenStep] at h
      cases h
      exact le_rfl
  | streamClosed g =>
      by_cases h2 : s.stopped
      · simp [screenStep, h2] at h
      · simp [screenStep, h2] at h
        cases h
        simp
  | quit =>
      by_cases h3 : s.hasTag
      · simp [screenStep, h3] at h
        cases h
        simp
      · simp [screenStep, h3] at h

/-- The `Tag` field is only ever assigned inside `showTag`'s found branch,
so one step keeps it inside the key set of the tags map. -/
theorem screenStep_tag_mem (tagsK : List Nat) (s : ScreenState) (i : SInput)
    (s' : ScreenState) (hs : tagsK.contains s.tag = true)
    (h : (screenStep tagsK s i).1 = some s') :
    tagsK.contains s'.tag = true := by
  cases i with
  | ev e =>
      by_cases h1 : e.screen = s.id
      · by_cases h2 : s.stopped
        · simp [screenStep, h1, h2] at h
          cases h
          exact hs
        · rcases hsel : selectTag tagsK s e with acts | t
          · simp [screenStep, h1, h2, hsel] at h
            cases h
            exact hs
          · simp [screenStep, h1, h2, hsel] at h
            simp only [showTag] at h
            split_ifs at h with hc <;> cases h
            · simpa using hc
            · exact hs
      · simp [screenStep, h1] at h
  | lines g f =>
      simp [screenStep] at h
      cases h
      exact hs
  | streamClosed g =>
      by_cases h2 : s.stopped
      · simp [screenStep, h2] at h
      · simp [screenStep, h2] at h
        cases h
        simpa using hs
  | quit =>
      by_cases h3 : s.hasTag
      · simp [screenStep, h3] at h
        cases h
        simpa using hs
      · simp [screenStep, h3] at h

/-- Along a valid trace every drawn frame arrives on a channel generation
at least the current one, and the generations of drawn frames form a
nondecreasing chain: once a later producer's frame has been drawn, no
earlier producer's frame is drawn again. -/
theorem validFrom_lineGens (tagsK : List Nat) :
    ∀ (tr : List SInput) (s : ScreenState), validFrom tagsK s tr = true →
      (∀ g ∈ lineGens tr, s.gen ≤ g) ∧
        List.Chain' (fun a b => a ≤ b) (lineGens tr) := by
  intro tr
  induction tr with
  | nil =>
      intro s _
      exact ⟨by simp [lineGens], List.chain'_nil⟩
  | cons i rest ih =>
      intro s hv
      simp only [validFrom, Bool.and_eq_true] at hv
      obtain ⟨hgen, hrest⟩ := hv
      cases hstep : (screenStep tagsK s i).1 with
      | none =>
          rw [hstep] at hrest
          have hempty : rest = [] := by simpa using hrest
          subst hempty
          cases i with
          | lines g f => simp [screenStep] at hstep
          | ev e => exact ⟨by simp [lineGens], by simp [lineGens]⟩
          | streamClosed g => exact ⟨by simp [lineGens], by simp [lineGens]⟩
          | quit => exact ⟨by simp [lineGens], by simp [lineGens]⟩
      | some s' =>
          rw [hstep] at hrest
          obtain ⟨hall, hchain⟩ := ih s' hrest
          have hmono := screenStep_gen_mono tagsK s i s' hstep
          cases i with
          | lines g f =>
              have hg : g = s.gen := by simpa [genOk] using hgen
              have hs' : s = s' := by
                have := hstep
                simp [screenStep] at this
                exact this
              subst hs'
              constructor
              · intro g' hg'
                simp only [lineGens] at hg'
                rcases List.mem_cons.mp hg' with h | h
                · omega
                · exact hall g' h
              · simp only [lineGens]
                rw [List.chain'_cons']
                refine ⟨?_, hchain⟩
                intro y hy
                have hmem : y ∈ lineGens rest := List.mem_of_mem_head? hy
                have := hall y hmem
                omega
          | ev e =>
              refine ⟨?_, by simpa [lineGens] using hchain⟩
              intro g' hg'
              simp only [lineGens] at hg'
              exact le_trans hmono (hall g' hg')
          | streamClosed g =>
              refine ⟨?_, by simpa [lineGens] using hchain⟩
              intro g' hg'
              simp only [lineGens] at hg'
              exact le_trans hmono (hall g' hg')
          | quit =>
              refine ⟨?_, by simpa [lineGens] using hchain⟩
              intro g' hg'
              simp only [lineGens] at hg'
              exact le_trans hmono (hall g' hg')

/-! ### Claim theorems: screen state machine -/

/-- C1 counterexample: a valid trace consisting of a single valid
`ChangeTag` event on a mid-stream screen (active tag 1, switching to tag 2)
instantiates the new producer (the `startProducer` action) in the very same
step as the stop-request, even though no stream-completion arrival occurs
anywhere in the trace — the machine does not wait for the previous
producer's output stream to signal completion before starting the new
producer. -/
theorem c1_counterexample :
    validFrom tagsKeys ⟨0, 1, true, false, 0⟩
        [SInput.ev ⟨ChangeTag, 0, [2]⟩] = true ∧
    (runScreen tagsKeys ⟨0, 1, true, false, 0⟩
        [SInput.ev ⟨ChangeTag, 0, [2]⟩]).2
      = [Action.stopReq, Action.startProducer 2 1] ∧
    ([SInput.ev ⟨ChangeTag, 0, [2]⟩].countP isStreamClosed) = 0 := by decide

/-- C1 amended: on a valid tag switch the machine issues the (blocking)
stop-request to the current producer first and instantiates the new
producer immediately afterwards in the same step, on a fresh results
channel, without waiting for the previous stream's completion; writes still
never interleave, because the single screen loop performs all draws and
reads only the current channel: along every valid trace the channel
generations of drawn frames are nondecreasing, so no frame of an earlier
producer is drawn after a frame of a later one. -/
theorem c1_no_interleave_amended :
    (∀ (tagsK : List Nat) (s : ScreenState) (tr : List SInput),
        validFrom tagsK s tr = true →
          List.Chain' (fun a b => a ≤ b) (lineGens tr)) ∧
    (∀ (tagsK : List Nat) (s : ScreenState) (t : Nat),
        s.hasTag = true → s.stopped = false → tagsK.contains t = true →
        screenStep tagsK s (SInput.ev ⟨ChangeTag, s.id, [t]⟩) =
          (some { s with tag := t, hasTag := true, gen := s.gen + 1 },
           [Action.stopReq, Action.startProducer t (s.gen + 1)])) := by
  constructor
  · intro tagsK s tr hv
    exact (validFrom_lineGens tagsK tr s hv).2
  · intro tagsK s t hht hst hmem
    have hmem' : t ∈ tagsK := by simpa using hmem
    simp [screenStep, selectTag, showTag, hht, hst, hmem', ChangeTag,
      IncrementTag, DecrementTag]

/-- C1 witness: the amended switch law at a concrete mid-stream state and
the chain property on a concrete valid trace. -/
theorem c1_witness :
    List.Chain' (fun a b => a ≤ b)
      (lineGens [SInput.lines 1 [[97]], SInput.lines 1 [[98]]]) ∧
    screenStep tagsKeys ⟨0, 1, true, false, 0⟩ (SInput.ev ⟨ChangeTag, 0, [2]⟩)
      = (some ⟨0, 2, true, false, 1⟩,
         [Action.stopReq, Action.startProducer 2 1]) :=
  ⟨c1_no_interleave_amended.1 tagsKeys ⟨0, 1, true, false, 1⟩
      [SInput.lines 1 [[97]], SInput.lines 1 [[98]]] (by decide),
   c1_no_interleave_amended.2 tagsKeys ⟨0, 1, true, false, 0⟩ 2 rfl rfl
      (by decide)⟩

/-- C2: evaluation at the failing input.  On a `ChangeTag` event carrying
the unknown tag index 9 while a producer is active (tag 1 mid-stream), the
step emits a stop-request to the running producer before `showTag` rejects
the index with its single log message; the record fields are unchanged, but
the running producer has been told to stop, contradicting the claimed
"no state change, producer not stopped" behaviour. -/
theorem c2_invalid_changetag_stops_producer :
    screenStep tagsKeys ⟨0, 1, true, false, 0⟩ (SInput.ev ⟨ChangeTag, 0, [9]⟩)
      = (some ⟨0, 1, true, false, 0⟩, [Action.stopReq, Action.log]) ∧
    tagsKeys.contains 9 = false := by decide

/-- C6: with the tags mapping `{1, 2, 3}`, `IncrementTag` on a screen whose
active tag is 3 switches it to tag 1 (uint8 increment misses, fallback to
1), and `DecrementTag` on a screen whose active tag is 1 switches it to tag
3 (uint8 decrement misses, fallback to `len(tags)`); in both cases the old
producer is stopped and the new tag's producer is started. -/
theorem c6_wraparound :
    screenStep tagsKeys ⟨0, 3, true, false, 0⟩ (SInput.ev ⟨IncrementTag, 0, []⟩)
      = (some ⟨0, 1, true, false, 1⟩,
         [Action.stopReq, Action.startProducer 1 1]) ∧
    screenStep tagsKeys ⟨1, 1, true, false, 0⟩ (SInput.ev ⟨DecrementTag, 1, []⟩)
      = (some ⟨1, 3, true, false, 1⟩,
         [Action.stopReq, Action.startProducer 3 1]) := by decide

/-- C8 counterexample: on the canonical shutdown trace — quit delivered
while the producer is mid-stream, then the producer's stream completion —
the screen sends the `Clear` command twice (once in the quit branch and
once from the deferred `Clear` on exit), not exactly once; the
stop-request is issued exactly once and the loop does exit. -/
theorem c8_counterexample :
    validFrom tagsKeys ⟨0, 1, true, false, 1⟩
        [SInput.quit, SInput.streamClosed 1] = true ∧
    runScreen tagsKeys ⟨0, 1, true, false, 1⟩
        [SInput.quit, SInput.streamClosed 1]
      = (none, [Action.sendCmd Clear 0 [], Action.stopReq,
                Action.sendCmd Clear 0 []]) ∧
    (runScreen tagsKeys ⟨0, 1, true, false, 1⟩
        [SInput.quit, SInput.streamClosed 1]).2.count
        (Action.sendCmd Clear 0 []) = 2 ∧
    (runScreen tagsKeys ⟨0, 1, true, false, 1⟩
        [SInput.quit, SInput.streamClosed 1]).2.count Action.stopReq = 1 := by
  decide

/-- C8 amended: when quit is delivered while a producer is mid-stream, the
screen issues exactly one stop-request (the first quit arrival sends it and
sets `stopped`; later quit arrivals resend only `Clear`), sends `Clear` on
every quit arrival and once more on exit via the deferred command (so at
least twice in total, not exactly once), and the loop reaches its terminal
state only upon the producer's stream completion; the session loop's
`wg.Wait()` completes exactly when every screen's loop has exited — in
particular it has not completed while this screen has seen only the quit,
and it has completed once the stream completion has also arrived. -/
theorem c8_shutdown_amended (tagsK : List Nat) (s : ScreenState)
    (h1 : s.hasTag = true) (h2 : s.stopped = false) :
    screenStep tagsK s SInput.quit =
      (some { s with stopped := true },
       [Action.sendCmd Clear s.id [], Action.stopReq]) ∧
    screenStep tagsK { s with stopped := true } SInput.quit =
      (some { s with stopped := true }, [Action.sendCmd Clear s.id []]) ∧
    screenStep tagsK { s with stopped := true } (SInput.streamClosed s.gen) =
      (none, [Action.sendCmd Clear s.id []]) ∧
    (∀ (screens : List (ScreenState × List SInput)),
        sessionWaitDone tagsK screens = true ↔
          ∀ p ∈ screens, (runScreen tagsK p.1 p.2).1 = none) ∧
    sessionWaitDone tagsK [(s, [SInput.quit])] = false ∧
    sessionWaitDone tagsK
        [(s, [SInput.quit, SInput.streamClosed s.gen])] = true := by
  have hq : screenStep tagsK s SInput.quit =
      (some { s with stopped := true },
       [Action.sendCmd Clear s.id [], Action.stopReq]) := by
    simp [screenStep, h1, h2]
  have hq2 : screenStep tagsK { s with stopped := true } SInput.quit =
      (some { s with stopped := true }, [Action.sendCmd Clear s.id []]) := by
    simp [screenStep, h1]
  have hsc : screenStep tagsK { s with stopped := true }
      (SInput.streamClosed s.gen) = (none, [Action.sendCmd Clear s.id []]) := by
    simp [screenStep]
  refine ⟨hq, hq2, hsc, ?_, ?_, ?_⟩
  · intro screens
    simp [sessionWaitDone, List.all_eq_true, Option.isNone_iff_eq_none]
  · simp [sessionWaitDone, runScreen, hq]
  · simp [sessionWaitDone, runScreen, hq, hsc]

/-- C8 witness: the amended shutdown law at a concrete mid-stream state,
including the session-level wait: not done after the quit alone, done once
the stream completion has arrived. -/
theorem c8_witness :
    screenStep tagsKeys ⟨0, 1, true, false, 1⟩ SInput.quit =
      (some ⟨0, 1, true, true, 1⟩,
       [Action.sendCmd Clear 0 [], Action.stopReq]) ∧
    screenStep tagsKeys ⟨0, 1, true, true, 1⟩ SInput.quit =
      (some ⟨0, 1, true, true, 1⟩, [Action.sendCmd Clear 0 []]) ∧
    screenStep tagsKeys ⟨0, 1, true, true, 1⟩ (SInput.streamClosed 1) =
      (none, [Action.sendCmd Clear 0 []]) ∧
    sessionWaitDone tagsKeys [(⟨0, 1, true, false, 1⟩, [SInput.quit])] = false ∧
    sessionWaitDone tagsKeys
        [(⟨0, 1, true, false, 1⟩,
          [SInput.quit, SInput.streamClosed 1])] = true := by
  have h := c8_shutdown_amended tagsKeys ⟨0, 1, true, false, 1⟩ rfl rfl
  exact ⟨h.1, h.2.1, h.2.2.1, h.2.2.2.2.1, h.2.2.2.2.2⟩

/-- C10: every screen handler spawned by the session starts on a tag that
is a key of the tags mapping, and the active tag field is a key of the
mapping at every state reachable by the state machine: each step either
leaves the field unchanged or sets it to an index `showTag` has verified to
be present. -/
theorem c10_tag_invariant :
    (∀ (st : SessionStart) (p : Nat × Nat), p ∈ runScreens st →
        tagsKeys.contains p.2 = true) ∧
    (∀ (tagsK : List Nat) (s : ScreenState) (tr : List SInput),
        tagsK.contains s.tag = true →
        ∀ s' ∈ runStates tagsK s tr, tagsK.contains s'.tag = true) := by
  constructor
  · intro st p hp
    cases st with
    | aborted => simp [runScreens] at hp
    | started c r =>
        simp only [runScreens] at hp
        rcases List.mem_cons.mp hp with h | h
        · subst h; decide
        · rcases List.mem_cons.mp h with h' | h'
          · subst h'; decide
          · simp at h'
  · intro tagsK s tr
    induction tr generalizing s with
    | nil =>
        intro hs s' h'
        simp only [runStates, List.mem_singleton] at h'
        subst h'
        exact hs
    | cons i rest ih =>
        intro hs s' h'
        simp only [runStates] at h'
        cases hstep : screenStep tagsK s i with
        | mk os acts =>
            rw [hstep] at h'
            cases os with
            | none =>
                simp only [List.mem_singleton] at h'
                subst h'
                exact hs
            | some s2 =>
                rcases List.mem_cons.mp h' with h | h
                · subst h; exact hs
                · have hmem : tagsK.contains s2.tag = true :=
                    screenStep_tag_mem tagsK s i s2 hs (by rw [hstep])
                  exact ih s2 hmem s' h

/-- C10 witness: the invariant at the spawned master screen and along a
concrete trace performing a decrement wrap-around. -/
theorem c10_witness :
    tagsKeys.contains ((Master, 1) : Nat × Nat).2 = true ∧
    tagsKeys.contains (⟨0, 3, true, false, 1⟩ : ScreenState).tag = true :=
  ⟨c10_tag_invariant.1 (SessionStart.started 4 2) (Master, 1) (by decide),
   c10_tag_invariant.2 tagsKeys ⟨0, 1, true, false, 0⟩
      [SInput.ev ⟨DecrementTag, 0, []⟩] (by decide)
      ⟨0, 3, true, false, 1⟩ (by decide)⟩

end OledController
